import Mathlib

/-!
# Verification of the backup/restore engine of `fix_project.py`

This file is a shallow embedding of the `BackupManager` class of
`src/fix_project.py` (lines 374-463) together with proofs about it.

Modelling conventions:

* Python `pathlib.Path` values are modelled by `PyPath`: an absolute-flag plus
  the list of path components.  `Path.relative_to` is purely lexical in Python
  (it raises `ValueError` unless the base's components are a prefix of the
  path's components and both are absolute or both relative); `relative_to`
  below mirrors that.  Filesystem operations (`exists`, `stat`, `copy2`,
  `mkdir`) resolve relative paths against the process working directory, so
  the embedded operations take a `cwd` argument and apply `resolve`.
* The filesystem is `FS`: an association list of files (path, content and
  modification time) plus a list of directories.  File contents are either raw
  bytes or, for the backup log `backup_log.json`, the parsed JSON array of
  records (`json.loads`/`json.dumps` round-trips the flat record dictionaries,
  so the log file is represented by its parsed value; its on-disk byte size is
  abstracted by `byteSize`).
* Timestamps: `datetime.now()` is passed in explicitly as a civil time `Tm`
  (second resolution, which is exactly the resolution `strftime
  "%Y%m%d_%H%M%S"` can observe) together with an epoch-seconds integer used
  for file modification times.  `fmtTm` reproduces the zero-padded
  `strftime("%Y%m%d_%H%M%S")` output and `isoTm` the `isoformat()` output at
  second resolution.
* `shutil.copy2` copies content and metadata (the modification time); when the
  destination is an existing directory it copies into it under the source's
  file name, exactly as in Python.
* Errors (`ValueError` from `relative_to`, copying a directory, a missing or
  unparsable log) are modelled with `Except PyErr`; each operation returns the
  filesystem as left behind at the point of the raise.
* `mkdir(parents=True, exist_ok=True)` is modelled as totally adding the
  missing ancestor directories.
-/

set_option autoImplicit false

namespace FixProject

/-- One entry of `backup_log.json`: the dictionary built in
`BackupManager._log_backup` with keys `timestamp`, `original`, `backup`,
`reason`, `size`. -/
structure BackupRecord where
  timestamp : String
  original : String
  backup : String
  reason : String
  size : Nat
deriving DecidableEq

/-- File content: raw bytes, or the parsed JSON array of the backup log. -/
inductive Content where
  | bytes (data : List Nat) : Content
  | log (records : List BackupRecord) : Content
deriving DecidableEq

/-- `st_size` of a file.  For byte files this is the byte count; for the
log file (stored parsed) the record count stands in as an abstract size. -/
def byteSize : Content → Nat
  | Content.bytes d => d.length
  | Content.log l => l.length

/-- A file on disk: its content and its modification time (epoch seconds),
the two attributes `shutil.copy2` transports and `cleanup_old_backups`
inspects. -/
structure File where
  content : Content
  mtime : Int
deriving DecidableEq

/-- A `pathlib.Path`: absolute flag and components. -/
structure PyPath where
  isAbs : Bool
  components : List String
deriving DecidableEq

/-- Resolution of a path against the working directory, as performed by the
operating system for `exists`, `stat`, `copy2` and `mkdir`. -/
def resolve (cwd p : PyPath) : PyPath :=
  if p.isAbs then p else ⟨cwd.isAbs, cwd.components ++ p.components⟩

/-- `Path.parent`: drop the last component (lexical). -/
def parentPath (p : PyPath) : PyPath := ⟨p.isAbs, p.components.dropLast⟩

/-- `p / s` for a single name `s`. -/
def childPath (p : PyPath) (s : String) : PyPath := ⟨p.isAbs, p.components ++ [s]⟩

/-- `Path.name`: the final component (`""` for an empty path). -/
def lastName (p : PyPath) : String := p.components.getLast?.getD ""

/-- `Path.relative_to`: purely lexical; `none` models the `ValueError`. -/
def relative_to (p base : PyPath) : Option (List String) :=
  if p.isAbs = base.isAbs ∧ base.components <+: p.components then
    some (p.components.drop base.components.length)
  else none

/-- `str()` of a relative path: components joined by `/` (`"."` when empty). -/
def strOfComps (comps : List String) : String :=
  match comps with
  | [] => "."
  | _ => String.intercalate "/" comps

/-- A civil timestamp at second resolution, the granularity observed by
`strftime("%Y%m%d_%H%M%S")`. -/
structure Tm where
  year : Nat
  month : Nat
  day : Nat
  hour : Nat
  minute : Nat
  second : Nat
deriving DecidableEq

/-- Field bounds under which the fixed-width decimal rendering is faithful
(generous bounds; every real `datetime` satisfies them). -/
def Tm.Valid (t : Tm) : Prop :=
  t.year < 10000 ∧ t.month < 100 ∧ t.day < 100 ∧
    t.hour < 100 ∧ t.minute < 100 ∧ t.second < 100

instance (t : Tm) : Decidable t.Valid := by
  unfold Tm.Valid; infer_instance

/-- The decimal digit character of `n % 10`. -/
def digCh (n : Nat) : Char :=
  match n % 10 with
  | 0 => '0' | 1 => '1' | 2 => '2' | 3 => '3' | 4 => '4'
  | 5 => '5' | 6 => '6' | 7 => '7' | 8 => '8' | _ => '9'

/-- Two-digit zero-padded rendering. -/
def dig2 (n : Nat) : List Char := [digCh (n / 10), digCh n]

/-- Four-digit zero-padded rendering. -/
def dig4 (n : Nat) : List Char :=
  [digCh (n / 1000), digCh (n / 100), digCh (n / 10), digCh n]

/-- `datetime.strftime("%Y%m%d_%H%M%S")`. -/
def fmtTm (t : Tm) : String :=
  ⟨dig4 t.year ++ dig2 t.month ++ dig2 t.day ++ ['_'] ++
    dig2 t.hour ++ dig2 t.minute ++ dig2 t.second⟩

/-- `datetime.isoformat()` at second resolution. -/
def isoTm (t : Tm) : String :=
  ⟨dig4 t.year ++ ['-'] ++ dig2 t.month ++ ['-'] ++ dig2 t.day ++ ['T'] ++
    dig2 t.hour ++ [':'] ++ dig2 t.minute ++ [':'] ++ dig2 t.second⟩

/-- The filesystem: files keyed by path, and the set of directories. -/
structure FS where
  files : List (PyPath × File)
  dirs : List PyPath
deriving DecidableEq

/-- Look up the file stored at `p`. -/
def getFile (fs : FS) (p : PyPath) : Option File :=
  (fs.files.find? (fun e => e.1 == p)).map (fun e => e.2)

/-- Write (create or overwrite) the file at `p`. -/
def setFile (fs : FS) (p : PyPath) (f : File) : FS :=
  { fs with files := (p, f) :: fs.files.filter (fun e => decide (e.1 ≠ p)) }

/-- `Path.unlink`. -/
def removeFile (fs : FS) (p : PyPath) : FS :=
  { fs with files := fs.files.filter (fun e => decide (e.1 ≠ p)) }

/-- `Path.exists` on an already resolved path: a file or a directory. -/
def existsPath (fs : FS) (p : PyPath) : Prop :=
  (getFile fs p).isSome = true ∨ p ∈ fs.dirs

instance (fs : FS) (p : PyPath) : Decidable (existsPath fs p) := by
  unfold existsPath; infer_instance

/-- Record a directory if not already present. -/
def addDir (fs : FS) (d : PyPath) : FS :=
  if d ∈ fs.dirs then fs else { fs with dirs := d :: fs.dirs }

/-- The nonempty component-wise ancestors of `p`, including `p` itself. -/
def prefixesOf (p : PyPath) : List PyPath :=
  (List.range p.components.length).map
    (fun i => PyPath.mk p.isAbs (p.components.take (i + 1)))

/-- `Path.mkdir(parents=True, exist_ok=True)` on a resolved path. -/
def mkdirParents (fs : FS) (p : PyPath) : FS :=
  (prefixesOf p).foldl addDir fs

/-- `shutil.copy2(src, dst)` on resolved paths: fails (`none`) when the
source is not a regular file; when `dst` is an existing directory it copies
into it under the source's name; content and modification time are copied. -/
def copy2 (fs : FS) (src dst : PyPath) : Option FS :=
  match getFile fs src with
  | none => none
  | some f =>
    let d := if dst ∈ fs.dirs then childPath dst (lastName src) else dst
    some (setFile fs d f)

/-- Errors a `BackupManager` operation can raise. -/
inductive PyErr where
  | valueError : PyErr
  | isADirError : PyErr
  | jsonError : PyErr
  | statError : PyErr
deriving DecidableEq

/-- `self.backup_dir = project_root / ".config_backup"`. -/
def backupDirOf (root : PyPath) : PyPath := childPath root ".config_backup"

/-- `self.backup_log = self.backup_dir / "backup_log.json"`. -/
def logPathOf (root : PyPath) : PyPath := childPath (backupDirOf root) "backup_log.json"

/-- `json.loads(self.backup_log.read_text())`: the parsed backup log, `none`
when the log file is missing or not a JSON record array. -/
def readLog (fs : FS) (root cwd : PyPath) : Option (List BackupRecord) :=
  match getFile fs (resolve cwd (logPathOf root)) with
  | some ⟨Content.log l, _⟩ => some l
  | _ => none

/-- The stored file name `f"{relative_path.name}.backup.{timestamp}"`. -/
def backupName (rel : List String) (t : Tm) : String :=
  (rel.getLast?.getD "") ++ ".backup." ++ fmtTm t

/-- The Path Mapper: `self.backup_dir / relative_path.parent / backup_name`. -/
def mkBackupPath (root : PyPath) (rel : List String) (t : Tm) : PyPath :=
  ⟨root.isAbs, root.components ++ [".config_backup"] ++ rel.dropLast ++ [backupName rel t]⟩

/-- The log entry dictionary built in `_log_backup`. -/
def mkRecord (t : Tm) (relOrig relBackup : List String) (reason : String) (size : Nat) :
    BackupRecord :=
  ⟨isoTm t, strOfComps relOrig, strOfComps relBackup, reason, size⟩

/-- `BackupManager.backup_file(file_path, reason)`.

Mirrors the source line by line: missing source is a no-op returning `None`;
otherwise compute the timestamped backup path via `relative_to` (which can
raise `ValueError`), create the parent directories, `copy2` the file, then
`_log_backup` re-reads the log, appends one record (with the source's size
from `stat`) and rewrites the log file whole.  Returns the final filesystem
and the Python return value (`Optional[Path]`). -/
def backup_file (fs : FS) (root cwd file_path : PyPath) (reason : String)
    (t : Tm) (nowE : Int) : FS × Except PyErr (Option PyPath) :=
  if ¬ existsPath fs (resolve cwd file_path) then (fs, Except.ok none)
  else
    match relative_to file_path root with
    | none => (fs, Except.error PyErr.valueError)
    | some rel =>
      let bp := mkBackupPath root rel t
      let fs1 := mkdirParents fs (resolve cwd (parentPath bp))
      match copy2 fs1 (resolve cwd file_path) (resolve cwd bp) with
      | none => (fs1, Except.error PyErr.isADirError)
      | some fs2 =>
        match readLog fs2 root cwd with
        | none => (fs2, Except.error PyErr.jsonError)
        | some l =>
          match relative_to bp root with
          | none => (fs2, Except.error PyErr.valueError)
          | some relBp =>
            match getFile fs2 (resolve cwd file_path) with
            | none => (fs2, Except.error PyErr.statError)
            | some f =>
              let entry := mkRecord t rel relBp reason (byteSize f.content)
              (setFile fs2 (resolve cwd (logPathOf root))
                ⟨Content.log (l ++ [entry]), nowE⟩,
               Except.ok (some bp))

/-- The characters of `s` before the first occurrence of `sep`
(`s.split(sep)[0]` in Python). -/
def splitHeadAux (sep : List Char) : List Char → List Char
  | [] => []
  | c :: rest => if sep.isPrefixOf (c :: rest) then [] else c :: splitHeadAux sep rest

/-- Python `s.split(sep)[0]` for nonempty `sep`. -/
def pySplitHead (s sep : String) : String := ⟨splitHeadAux sep.data s.data⟩

/-- The default restore target:
`backup_path.parent.parent / backup_path.name.split('.backup.')[0]`. -/
def restoreTarget (backup_path : PyPath) : PyPath :=
  childPath (parentPath (parentPath backup_path))
    (pySplitHead (lastName backup_path) ".backup.")

/-- `BackupManager.restore_backup(backup_path, target_path)`.

Missing backup path: return `False` untouched.  Otherwise derive the target
when not given, create its parent directories, `copy2` the backup over it and
print the target relative to the project root (which raises `ValueError`
when the target is outside the root). -/
def restore_backup (fs : FS) (root cwd backup_path : PyPath)
    (targetOpt : Option PyPath) : FS × Except PyErr Bool :=
  if ¬ existsPath fs (resolve cwd backup_path) then (fs, Except.ok false)
  else
    let target := targetOpt.getD (restoreTarget backup_path)
    let fs1 := mkdirParents fs (resolve cwd (parentPath target))
    match copy2 fs1 (resolve cwd backup_path) (resolve cwd target) with
    | none => (fs1, Except.error PyErr.isADirError)
    | some fs2 =>
      match relative_to target root with
      | none => (fs2, Except.error PyErr.valueError)
      | some _ => (fs2, Except.ok true)

/-- `BackupManager.list_backups()`. -/
def list_backups (fs : FS) (root cwd : PyPath) : List BackupRecord :=
  (readLog fs root cwd).getD []

/-- `p` lies strictly below the directory `bd`. -/
def underDir (bd p : PyPath) : Prop :=
  bd.isAbs = p.isAbs ∧ bd.components <+: p.components ∧
    bd.components.length < p.components.length

instance (bd p : PyPath) : Decidable (underDir bd p) := by
  unfold underDir; infer_instance

/-- Whether a file name matches the glob `*.backup.*`: `fnmatch` translates
it to "contains the substring `.backup.`". -/
def containsBackupMark (s : String) : Bool :=
  decide ((".backup.".data) <:+: s.data)

/-- The condition under which `cleanup_old_backups` unlinks a stored file:
it is below the backup directory, its name matches `*.backup.*`, and its
modification time is older than the cutoff. -/
def sweepCond (bd : PyPath) (cutoff : Int) (e : PyPath × File) : Bool :=
  decide (underDir bd e.1) && containsBackupMark (lastName e.1) &&
    decide (e.2.mtime < cutoff)

/-- The files `backup_dir.rglob("*.backup.*")` finds with an expired
modification time. -/
def sweepDoomed (fs : FS) (bd : PyPath) (cutoff : Int) : List (PyPath × File) :=
  fs.files.filter (sweepCond bd cutoff)

/-- `not any(dir_path.iterdir())`: no file and no other directory has `d` as
its immediate parent. -/
def isEmptyDir (a : FS) (d : PyPath) : Prop :=
  (∀ e ∈ a.files, parentPath e.1 ≠ d) ∧ (∀ x ∈ a.dirs, x = d ∨ parentPath x ≠ d)

instance (a : FS) (d : PyPath) : Decidable (isEmptyDir a d) := by
  unfold isEmptyDir; infer_instance

/-- One `rmdir` attempt inside its `try/except: pass`. -/
def pruneStep (a : FS) (d : PyPath) : FS :=
  if d ∈ a.dirs ∧ isEmptyDir a d then
    { a with dirs := a.dirs.filter (fun x => decide (x ≠ d)) }
  else a

/-- Insertion keeping the list sorted by component count, deepest first. -/
def insertByDepth (d : PyPath) : List PyPath → List PyPath
  | [] => [d]
  | x :: xs =>
    if x.components.length ≤ d.components.length then d :: x :: xs
    else x :: insertByDepth d xs

/-- `sorted(..., key=lambda x: len(x.parts), reverse=True)`. -/
def sortByDepthDesc (l : List PyPath) : List PyPath := l.foldr insertByDepth []

/-- The empty-directory sweep of `cleanup_old_backups`: walk the directories
below the backup directory deepest first and remove those left empty. -/
def pruneDirs (fs : FS) (bd : PyPath) : FS :=
  (sortByDepthDesc (fs.dirs.filter (fun x => decide (underDir bd x)))).foldl pruneStep fs

/-- `BackupManager.cleanup_old_backups(keep_days)`.

Unlinks every stored file matching `*.backup.*` below the backup directory
whose modification time is older than `now - keep_days` days, then removes
directories left empty.  The Python function has no `return` statement, so
the returned value is `none` (Python `None`). -/
def cleanup_old_backups (fs : FS) (root cwd : PyPath) (nowE keep_days : Int) :
    FS × Option Nat :=
  let cutoff := nowE - keep_days * 86400
  let bd := resolve cwd (backupDirOf root)
  let fs1 := (sweepDoomed fs bd cutoff).foldl (fun a e => removeFile a e.1) fs
  (pruneDirs fs1 bd, none)

/-- A sequence of `backup_file` calls (path, reason, civil time, epoch time),
each acting on the filesystem the previous one left behind. -/
def runCaptures (root cwd : PyPath) : FS → List (PyPath × String × Tm × Int) → FS
  | fs, [] => fs
  | fs, (p, reason, t, e) :: ops =>
    runCaptures root cwd (backup_file fs root cwd p reason t e).1 ops

/-- The length of the Backup Log (0 when missing/unreadable). -/
def logLen (fs : FS) (root cwd : PyPath) : Nat := (list_backups fs root cwd).length

/-- `relOf root p`: the components of `p.relative_to(root)` when it succeeds. -/
def relOf (root p : PyPath) : List String := p.components.drop root.components.length

/-- The filesystem left behind by a successful `backup_file` run, in closed
form: directories created, the copy written at the mapped backup path, and
the log rewritten with one appended record. -/
def captureState (fs : FS) (root : PyPath) (rel : List String) (reason : String)
    (t : Tm) (nowE : Int) (F : File) (l : List BackupRecord) : FS :=
  setFile
    (setFile (mkdirParents fs (parentPath (mkBackupPath root rel t)))
      (mkBackupPath root rel t) F)
    (logPathOf root)
    ⟨Content.log (l ++ [mkRecord t rel
        ([".config_backup"] ++ rel.dropLast ++ [backupName rel t]) reason
        (byteSize F.content)]), nowE⟩

deriving instance DecidableEq for Except

section Lemmas

variable {α : Type}

theorem concat_last_eq {l₁ l₂ : List α} {a b : α} (h : l₁ ++ [a] = l₂ ++ [b]) :
    a = b := by
  have h2 := congrArg List.getLast? h
  simpa [List.getLast?_concat] using h2

theorem find?_filter_ne (l : List (PyPath × File)) (p q : PyPath) (h : q ≠ p) :
    (l.filter (fun e => decide (e.1 ≠ p))).find? (fun e => e.1 == q) =
      l.find? (fun e => e.1 == q) := by
  induction l with
  | nil => rfl
  | cons a l ih =>
    by_cases hp : a.1 = p
    · have h2 : ¬ (((fun e : PyPath × File => e.1 == q) a) = true) := by
        simp only [beq_iff_eq, hp]
        exact fun hh => h hh.symm
      rw [List.filter_cons_of_neg (by simp [hp]),
        @List.find?_cons_of_neg _ (fun e => e.1 == q) a l h2, ih]
    · by_cases hq : a.1 = q
      · rw [List.filter_cons_of_pos (by simp [hp]),
          @List.find?_cons_of_pos _ (fun e => e.1 == q) a _ (by simp [hq]),
          @List.find?_cons_of_pos _ (fun e => e.1 == q) a l (by simp [hq])]
      · rw [List.filter_cons_of_pos (by simp [hp]),
          @List.find?_cons_of_neg _ (fun e => e.1 == q) a _ (by simp [hq]),
          @List.find?_cons_of_neg _ (fun e => e.1 == q) a l (by simp [hq]), ih]

theorem getFile_setFile (fs : FS) (p : PyPath) (f : File) (q : PyPath) :
    getFile (setFile fs p f) q = if q = p then some f else getFile fs q := by
  by_cases h : q = p
  · subst h
    unfold getFile setFile
    rw [@List.find?_cons_of_pos _ (fun e => e.1 == q) (q, f) _ (by simp), if_pos rfl]
    rfl
  · unfold getFile setFile
    rw [@List.find?_cons_of_neg _ (fun e => e.1 == q) (p, f) _
        (by simpa using fun hh : p = q => h hh.symm),
      find?_filter_ne fs.files p q h, if_neg h]

theorem getFile_removeFile (fs : FS) (p q : PyPath) :
    getFile (removeFile fs p) q = if q = p then none else getFile fs q := by
  by_cases h : q = p
  · subst h
    unfold getFile removeFile
    rw [if_pos rfl, List.find?_eq_none.2]
    · rfl
    · intro e he
      have h2 := (List.mem_filter.1 he).2
      simp only [decide_eq_true_eq] at h2
      simp [h2]
  · unfold getFile removeFile
    rw [find?_filter_ne fs.files p q h, if_neg h]

@[simp] theorem dirs_setFile (fs : FS) (p : PyPath) (f : File) :
    (setFile fs p f).dirs = fs.dirs := rfl

@[simp] theorem dirs_removeFile (fs : FS) (p : PyPath) :
    (removeFile fs p).dirs = fs.dirs := rfl

theorem files_foldl_addDir : ∀ (l : List PyPath) (fs : FS),
    (l.foldl addDir fs).files = fs.files
  | [], _ => rfl
  | d :: l, fs => by
    rw [List.foldl_cons, files_foldl_addDir l]
    unfold addDir; split <;> rfl

@[simp] theorem files_mkdirParents (fs : FS) (p : PyPath) :
    (mkdirParents fs p).files = fs.files := files_foldl_addDir _ _

theorem getFile_mkdirParents (fs : FS) (p q : PyPath) :
    getFile (mkdirParents fs p) q = getFile fs q := by
  unfold getFile; rw [files_mkdirParents]

theorem mem_dirs_foldl_addDir : ∀ (l : List PyPath) (fs : FS) (d : PyPath),
    d ∈ (l.foldl addDir fs).dirs → d ∈ fs.dirs ∨ d ∈ l
  | [], _, _, h => Or.inl h
  | x :: l, fs, d, h => by
    rcases mem_dirs_foldl_addDir l (addDir fs x) d h with h1 | h1
    · unfold addDir at h1
      split at h1
      · exact Or.inl h1
      · rcases List.mem_cons.1 h1 with h2 | h2
        · exact Or.inr (by simp [h2])
        · exact Or.inl h2
    · exact Or.inr (List.mem_cons_of_mem _ h1)

theorem dirs_subset_foldl_addDir : ∀ (l : List PyPath) (fs : FS) (d : PyPath),
    d ∈ fs.dirs → d ∈ (l.foldl addDir fs).dirs
  | [], _, _, h => h
  | x :: l, fs, d, h => by
    apply dirs_subset_foldl_addDir l (addDir fs x) d
    unfold addDir; split
    · exact h
    · exact List.mem_cons_of_mem _ h

theorem mem_prefixesOf_length {d p : PyPath} (h : d ∈ prefixesOf p) :
    d.components.length ≤ p.components.length := by
  unfold prefixesOf at h
  rcases List.mem_map.1 h with ⟨i, hi, rfl⟩
  have : i < p.components.length := List.mem_range.1 hi
  simp only [List.length_take]
  omega

theorem mem_dirs_mkdirParents {fs : FS} {p d : PyPath}
    (h : d ∈ (mkdirParents fs p).dirs) :
    d ∈ fs.dirs ∨ d.components.length ≤ p.components.length := by
  rcases mem_dirs_foldl_addDir _ _ _ h with h1 | h1
  · exact Or.inl h1
  · exact Or.inr (mem_prefixesOf_length h1)

theorem dirs_subset_mkdirParents {fs : FS} (p : PyPath) {d : PyPath}
    (h : d ∈ fs.dirs) : d ∈ (mkdirParents fs p).dirs :=
  dirs_subset_foldl_addDir _ _ _ h

theorem files_foldl_pruneStep : ∀ (l : List PyPath) (fs : FS),
    (l.foldl pruneStep fs).files = fs.files
  | [], _ => rfl
  | d :: l, fs => by
    rw [List.foldl_cons, files_foldl_pruneStep l]
    unfold pruneStep; split <;> rfl

@[simp] theorem files_pruneDirs (fs : FS) (bd : PyPath) :
    (pruneDirs fs bd).files = fs.files := files_foldl_pruneStep _ _

theorem digCh_mod (n : Nat) : digCh n = digCh (n % 10) := by
  unfold digCh
  rw [Nat.mod_mod_of_dvd n (by norm_num)]

theorem digCh_inj_small : ∀ a, a < 10 → ∀ b, b < 10 → digCh a = digCh b → a = b := by
  decide

theorem digCh_inj {a b : Nat} (h : digCh a = digCh b) : a % 10 = b % 10 := by
  have h2 : digCh (a % 10) = digCh (b % 10) := by
    rw [← digCh_mod, ← digCh_mod]; exact h
  exact digCh_inj_small _ (Nat.mod_lt _ (by norm_num)) _ (Nat.mod_lt _ (by norm_num)) h2

theorem fmtTm_inj {t1 t2 : Tm} (h1 : t1.Valid) (h2 : t2.Valid)
    (h : fmtTm t1 = fmtTm t2) : t1 = t2 := by
  obtain ⟨y1, mo1, d1, ho1, mi1, s1⟩ := t1
  obtain ⟨y2, mo2, d2, ho2, mi2, s2⟩ := t2
  obtain ⟨hy1, hmo1, hd1, hh1, hmi1, hs1⟩ := h1
  obtain ⟨hy2, hmo2, hd2, hh2, hmi2, hs2⟩ := h2
  dsimp only at hy1 hmo1 hd1 hh1 hmi1 hs1 hy2 hmo2 hd2 hh2 hmi2 hs2
  have hdata := congrArg String.data h
  simp only [fmtTm, dig4, dig2, List.cons_append, List.nil_append,
    List.cons.injEq, eq_self_iff_true, true_and, and_true] at hdata
  obtain ⟨e1, e2, e3, e4, e5, e6, e7, e8, e9, e10, e11, e12, e13, e14⟩ := hdata
  have g1 := digCh_inj e1
  have g2 := digCh_inj e2
  have g3 := digCh_inj e3
  have g4 := digCh_inj e4
  have g5 := digCh_inj e5
  have g6 := digCh_inj e6
  have g7 := digCh_inj e7
  have g8 := digCh_inj e8
  have g9 := digCh_inj e9
  have g10 := digCh_inj e10
  have g11 := digCh_inj e11
  have g12 := digCh_inj e12
  have g13 := digCh_inj e13
  have g14 := digCh_inj e14
  simp only [Tm.mk.injEq]
  omega

theorem isoTm_inj {t1 t2 : Tm} (h1 : t1.Valid) (h2 : t2.Valid)
    (h : isoTm t1 = isoTm t2) : t1 = t2 := by
  obtain ⟨y1, mo1, d1, ho1, mi1, s1⟩ := t1
  obtain ⟨y2, mo2, d2, ho2, mi2, s2⟩ := t2
  obtain ⟨hy1, hmo1, hd1, hh1, hmi1, hs1⟩ := h1
  obtain ⟨hy2, hmo2, hd2, hh2, hmi2, hs2⟩ := h2
  dsimp only at hy1 hmo1 hd1 hh1 hmi1 hs1 hy2 hmo2 hd2 hh2 hmi2 hs2
  have hdata := congrArg String.data h
  simp only [isoTm, dig4, dig2, List.cons_append, List.nil_append,
    List.cons.injEq, eq_self_iff_true, true_and, and_true] at hdata
  obtain ⟨e1, e2, e3, e4, e5, e6, e7, e8, e9, e10, e11, e12, e13, e14⟩ := hdata
  have g1 := digCh_inj e1
  have g2 := digCh_inj e2
  have g3 := digCh_inj e3
  have g4 := digCh_inj e4
  have g5 := digCh_inj e5
  have g6 := digCh_inj e6
  have g7 := digCh_inj e7
  have g8 := digCh_inj e8
  have g9 := digCh_inj e9
  have g10 := digCh_inj e10
  have g11 := digCh_inj e11
  have g12 := digCh_inj e12
  have g13 := digCh_inj e13
  have g14 := digCh_inj e14
  simp only [Tm.mk.injEq]
  omega

theorem resolve_components (cwd p : PyPath) :
    (resolve cwd p).components =
      (if p.isAbs = true then ([] : List String) else cwd.components) ++ p.components := by
  unfold resolve
  by_cases h : p.isAbs = true <;> simp [h]

theorem resolve_isAbs_self {cwd p : PyPath} (h : p.isAbs = true) :
    resolve cwd p = p := by
  unfold resolve; rw [if_pos h]

theorem mark_in_backupName (rel : List String) (t : Tm) :
    (".backup.".data) <:+: (backupName rel t).data := by
  unfold backupName
  rw [String.data_append, String.data_append]
  exact List.infix_append _ _ _

theorem backupName_ne_log (rel : List String) (t : Tm) :
    backupName rel t ≠ "backup_log.json" := by
  intro h
  have h2 := mark_in_backupName rel t
  rw [h] at h2
  exact (by decide : ¬ (".backup.".data <:+: "backup_log.json".data)) h2

theorem backupName_ne_cfg (rel : List String) (t : Tm) :
    backupName rel t ≠ ".config_backup" := by
  intro h
  have h2 := mark_in_backupName rel t
  rw [h] at h2
  exact (by decide : ¬ (".backup.".data <:+: ".config_backup".data)) h2

theorem components_mkBackupPath (root : PyPath) (rel : List String) (t : Tm) :
    (mkBackupPath root rel t).components =
      (root.components ++ ([".config_backup"] ++ rel.dropLast)) ++ [backupName rel t] := by
  unfold mkBackupPath
  simp [List.append_assoc]

theorem components_logPathOf (root : PyPath) :
    (logPathOf root).components =
      (root.components ++ [".config_backup"]) ++ ["backup_log.json"] := by
  unfold logPathOf backupDirOf childPath
  simp

theorem mkBackupPath_ne_logPath (root root2 : PyPath) (rel : List String) (t : Tm) :
    mkBackupPath root rel t ≠ logPathOf root2 := by
  intro h
  have h2 := congrArg PyPath.components h
  rw [components_mkBackupPath, components_logPathOf] at h2
  exact backupName_ne_log rel t (concat_last_eq h2)

theorem resolve_mkBackupPath_ne_resolve_logPath (cwd cwd2 root root2 : PyPath)
    (rel : List String) (t : Tm) :
    resolve cwd (mkBackupPath root rel t) ≠ resolve cwd2 (logPathOf root2) := by
  intro h
  have h2 := congrArg PyPath.components h
  rw [resolve_components, resolve_components, components_mkBackupPath,
    components_logPathOf] at h2
  simp only [← List.append_assoc] at h2
  exact backupName_ne_log rel t (concat_last_eq h2)

theorem child_resolve_mkBackupPath_ne_resolve_logPath (cwd cwd2 root root2 : PyPath)
    (rel : List String) (t : Tm) (s : String) :
    childPath (resolve cwd (mkBackupPath root rel t)) s ≠ resolve cwd2 (logPathOf root2) := by
  intro h
  have h2 := congrArg PyPath.components h
  unfold childPath at h2
  rw [resolve_components, resolve_components, components_mkBackupPath,
    components_logPathOf] at h2
  dsimp only at h2
  simp only [← List.append_assoc] at h2
  have h3 := congrArg List.dropLast h2
  rw [List.dropLast_concat, List.dropLast_concat] at h3
  have h5 := congrArg List.getLast? h3
  rw [List.getLast?_concat, List.getLast?_concat] at h5
  exact backupName_ne_cfg rel t (Option.some.inj h5)

theorem relative_to_append (base : PyPath) (suffix : List String) :
    relative_to ⟨base.isAbs, base.components ++ suffix⟩ base = some suffix := by
  unfold relative_to
  rw [if_pos ⟨rfl, List.prefix_append _ _⟩]
  simp [List.drop_left]

theorem relative_to_from_below {p base : PyPath} (h1 : p.isAbs = base.isAbs)
    (h2 : base.components <+: p.components) :
    relative_to p base = some (p.components.drop base.components.length) := by
  unfold relative_to
  rw [if_pos ⟨h1, h2⟩]

theorem components_eq_append_relOf {root p : PyPath}
    (h : root.components <+: p.components) :
    p.components = root.components ++ relOf root p := by
  obtain ⟨s, hs⟩ := h
  unfold relOf
  rw [← hs, List.drop_left]

theorem lastName_mkBackupPath (root : PyPath) (rel : List String) (t : Tm) :
    lastName (mkBackupPath root rel t) = backupName rel t := by
  unfold lastName
  rw [components_mkBackupPath, List.getLast?_concat]
  rfl

theorem lastName_resolve_logPath (cwd root : PyPath) :
    lastName (resolve cwd (logPathOf root)) = "backup_log.json" := by
  unfold lastName
  rw [resolve_components, components_logPathOf, ← List.append_assoc,
    ← List.append_assoc, List.getLast?_concat]
  rfl

theorem copy2_eq_of_file_not_dir {fs : FS} {src dst : PyPath} {F : File}
    (hs : getFile fs src = some F) (hd : dst ∉ fs.dirs) :
    copy2 fs src dst = some (setFile fs dst F) := by
  unfold copy2
  rw [hs]
  dsimp only
  rw [if_neg hd]

theorem isAbs_mkBackupPath (root : PyPath) (rel : List String) (t : Tm) :
    (mkBackupPath root rel t).isAbs = root.isAbs := rfl

theorem isAbs_logPathOf (root : PyPath) : (logPathOf root).isAbs = root.isAbs := rfl

theorem isAbs_parentPath (p : PyPath) : (parentPath p).isAbs = p.isAbs := rfl

theorem length_mkBackupPath (root : PyPath) (rel : List String) (t : Tm) :
    (mkBackupPath root rel t).components.length =
      root.components.length + rel.dropLast.length + 2 := by
  rw [components_mkBackupPath]
  simp
  omega

theorem bp_not_mem_mkdir_dirs {fs : FS} {root : PyPath} {rel : List String} {t : Tm}
    (hd : mkBackupPath root rel t ∉ fs.dirs) :
    mkBackupPath root rel t ∉ (mkdirParents fs (parentPath (mkBackupPath root rel t))).dirs := by
  intro hmem
  rcases mem_dirs_mkdirParents hmem with h1 | h1
  · exact hd h1
  · unfold parentPath at h1
    dsimp only at h1
    rw [List.length_dropLast] at h1
    have h2 := length_mkBackupPath root rel t
    omega

theorem relative_to_mkBackupPath (root : PyPath) (rel : List String) (t : Tm) :
    relative_to (mkBackupPath root rel t) root =
      some ([".config_backup"] ++ rel.dropLast ++ [backupName rel t]) := by
  unfold relative_to
  rw [if_pos ⟨rfl, by rw [components_mkBackupPath]; exact ⟨_, by rw [List.append_assoc]⟩⟩]
  rw [components_mkBackupPath, List.append_assoc, List.drop_left]

theorem file_path_ne_mkBackupPath {root file_path : PyPath} {t : Tm}
    (hpre : root.components <+: file_path.components) :
    file_path ≠ mkBackupPath root (relOf root file_path) t := by
  intro h
  have h2 := congrArg (fun q => q.components.length) h
  dsimp only at h2
  rw [length_mkBackupPath] at h2
  have h3 := congrArg List.length (components_eq_append_relOf hpre)
  rw [List.length_append] at h3
  rw [List.length_dropLast] at h2
  have h4 : (relOf root file_path).length = 0 ∨ 1 ≤ (relOf root file_path).length := by omega
  omega

theorem readLog_inv {fs : FS} {root cwd : PyPath} {l : List BackupRecord}
    (hra : root.isAbs = true) (hl : readLog fs root cwd = some l) :
    ∃ m, getFile fs (logPathOf root) = some ⟨Content.log l, m⟩ := by
  unfold readLog at hl
  rw [resolve_isAbs_self (by rw [isAbs_logPathOf]; exact hra)] at hl
  cases h3 : getFile fs (logPathOf root) with
  | none => rw [h3] at hl; exact absurd hl (by simp)
  | some f =>
    rw [h3] at hl
    obtain ⟨c, m⟩ := f
    cases c with
    | bytes d => exact absurd hl (by simp)
    | log lr =>
      simp only [Option.some.injEq] at hl
      exact ⟨m, by rw [hl]⟩

/-- Closed-form execution of a successful `backup_file`: with an absolute
source path below the root, a readable log and the mapped backup path not an
existing directory, the run performs exactly the `captureState` effects and
returns the backup path. -/
theorem backup_file_success
    (fs : FS) (root cwd file_path : PyPath) (reason : String) (t : Tm) (nowE : Int)
    (F : File) (l : List BackupRecord)
    (hra : root.isAbs = true) (hpa : file_path.isAbs = true)
    (hpre : root.components <+: file_path.components)
    (hf : getFile fs file_path = some F)
    (hl : readLog fs root cwd = some l)
    (hd : mkBackupPath root (relOf root file_path) t ∉ fs.dirs) :
    backup_file fs root cwd file_path reason t nowE =
      (captureState fs root (relOf root file_path) reason t nowE F l,
       Except.ok (some (mkBackupPath root (relOf root file_path) t))) := by
  have hbp_abs : (mkBackupPath root (relOf root file_path) t).isAbs = true := by
    rw [isAbs_mkBackupPath]; exact hra
  have e1 : resolve cwd file_path = file_path := resolve_isAbs_self hpa
  have e2 : resolve cwd (mkBackupPath root (relOf root file_path) t) =
      mkBackupPath root (relOf root file_path) t := resolve_isAbs_self hbp_abs
  have e3 : resolve cwd (parentPath (mkBackupPath root (relOf root file_path) t)) =
      parentPath (mkBackupPath root (relOf root file_path) t) :=
    resolve_isAbs_self (by rw [isAbs_parentPath]; exact hbp_abs)
  have e4 : resolve cwd (logPathOf root) = logPathOf root :=
    resolve_isAbs_self (by rw [isAbs_logPathOf]; exact hra)
  have hex : existsPath fs (resolve cwd file_path) := by
    rw [e1]; exact Or.inl (by rw [hf]; rfl)
  have hrel : relative_to file_path root = some (relOf root file_path) :=
    relative_to_from_below (by rw [hpa, hra]) hpre
  obtain ⟨m, hm⟩ := readLog_inv hra hl
  unfold backup_file
  rw [if_neg (not_not_intro hex), hrel]
  dsimp only
  rw [e1, e2, e3]
  have hc : copy2 (mkdirParents fs (parentPath (mkBackupPath root (relOf root file_path) t)))
      file_path (mkBackupPath root (relOf root file_path) t) =
      some (setFile (mkdirParents fs (parentPath (mkBackupPath root (relOf root file_path) t)))
        (mkBackupPath root (relOf root file_path) t) F) := by
    apply copy2_eq_of_file_not_dir
    · rw [getFile_mkdirParents]; exact hf
    · exact bp_not_mem_mkdir_dirs hd
  rw [hc]
  dsimp only
  have hrl2 : readLog (setFile (mkdirParents fs (parentPath (mkBackupPath root (relOf root file_path) t)))
      (mkBackupPath root (relOf root file_path) t) F) root cwd = some l := by
    unfold readLog
    rw [e4, getFile_setFile,
      if_neg (fun h => mkBackupPath_ne_logPath root root (relOf root file_path) t h.symm),
      getFile_mkdirParents, hm]
  rw [hrl2]
  dsimp only
  rw [relative_to_mkBackupPath]
  dsimp only
  rw [getFile_setFile, if_neg (file_path_ne_mkBackupPath hpre), getFile_mkdirParents, hf]
  dsimp only
  rw [e4]
  rfl

/-- Closed-form execution of a successful `restore_backup`: with the backup
file present, the (resolved) target not an existing directory and the target
below the project root, the run writes the backup's file at the target and
returns `True`. -/
theorem restore_backup_success
    (fs : FS) (root cwd backup_path : PyPath) (targetOpt : Option PyPath) (F : File)
    (hb : getFile fs (resolve cwd backup_path) = some F)
    (ht : resolve cwd (targetOpt.getD (restoreTarget backup_path)) ∉ fs.dirs)
    (htne : (targetOpt.getD (restoreTarget backup_path)).components ≠ [])
    (hab : (targetOpt.getD (restoreTarget backup_path)).isAbs = root.isAbs)
    (hpre : root.components <+: (targetOpt.getD (restoreTarget backup_path)).components) :
    restore_backup fs root cwd backup_path targetOpt =
      (setFile (mkdirParents fs (resolve cwd (parentPath (targetOpt.getD (restoreTarget backup_path)))))
        (resolve cwd (targetOpt.getD (restoreTarget backup_path))) F,
       Except.ok true) := by
  have hex : existsPath fs (resolve cwd backup_path) :=
    Or.inl (by rw [hb]; rfl)
  have hlen : (resolve cwd (parentPath (targetOpt.getD (restoreTarget backup_path)))).components.length + 1 =
      (resolve cwd (targetOpt.getD (restoreTarget backup_path))).components.length := by
    rw [resolve_components, resolve_components, isAbs_parentPath]
    unfold parentPath
    dsimp only
    rw [List.length_append, List.length_append, List.length_dropLast]
    have : 1 ≤ (targetOpt.getD (restoreTarget backup_path)).components.length := by
      cases h : (targetOpt.getD (restoreTarget backup_path)).components with
      | nil => exact absurd h htne
      | cons a l => simp
    omega
  have htd : resolve cwd (targetOpt.getD (restoreTarget backup_path)) ∉
      (mkdirParents fs (resolve cwd (parentPath (targetOpt.getD (restoreTarget backup_path))))).dirs := by
    intro hmem
    rcases mem_dirs_mkdirParents hmem with h1 | h1
    · exact ht h1
    · omega
  unfold restore_backup
  rw [if_neg (not_not_intro hex)]
  dsimp only
  have hc : copy2 (mkdirParents fs (resolve cwd (parentPath (targetOpt.getD (restoreTarget backup_path)))))
      (resolve cwd backup_path) (resolve cwd (targetOpt.getD (restoreTarget backup_path))) =
      some (setFile (mkdirParents fs (resolve cwd (parentPath (targetOpt.getD (restoreTarget backup_path)))))
        (resolve cwd (targetOpt.getD (restoreTarget backup_path))) F) := by
    apply copy2_eq_of_file_not_dir
    · rw [getFile_mkdirParents]; exact hb
    · exact htd
  rw [hc]
  dsimp only
  rw [relative_to_from_below hab hpre]

theorem copy2_inv {fs fs2 : FS} {src dst : PyPath} (h : copy2 fs src dst = some fs2) :
    ∃ f, getFile fs src = some f ∧
      (fs2 = setFile fs dst f ∨ fs2 = setFile fs (childPath dst (lastName src)) f) := by
  unfold copy2 at h
  cases hg : getFile fs src with
  | none => rw [hg] at h; exact absurd h (by simp)
  | some f =>
    rw [hg] at h
    dsimp only at h
    refine ⟨f, rfl, ?_⟩
    by_cases hdir : dst ∈ fs.dirs
    · rw [if_pos hdir] at h
      exact Or.inr (Option.some.inj h).symm
    · rw [if_neg hdir] at h
      exact Or.inl (Option.some.inj h).symm

theorem readLog_mkdirParents (fs : FS) (q root cwd : PyPath) :
    readLog (mkdirParents fs q) root cwd = readLog fs root cwd := by
  unfold readLog
  rw [getFile_mkdirParents]

theorem readLog_setFile_ne {fs : FS} {q : PyPath} {f : File} {root cwd : PyPath}
    (h : resolve cwd (logPathOf root) ≠ q) :
    readLog (setFile fs q f) root cwd = readLog fs root cwd := by
  unfold readLog
  rw [getFile_setFile, if_neg h]

theorem list_backups_eq_of_readLog_eq {fs1 fs2 : FS} {root cwd : PyPath}
    (h : readLog fs1 root cwd = readLog fs2 root cwd) :
    list_backups fs1 root cwd = list_backups fs2 root cwd := by
  unfold list_backups
  rw [h]

/-- One `backup_file` call never erases existing log records: whatever branch
is taken, the old parsed log is a prefix of the new one. -/
theorem list_backups_prefix_backup_file (fs : FS) (root cwd p : PyPath)
    (reason : String) (t : Tm) (e : Int) :
    list_backups fs root cwd <+:
      list_backups (backup_file fs root cwd p reason t e).1 root cwd := by
  unfold backup_file
  by_cases hex : existsPath fs (resolve cwd p)
  · rw [if_neg (not_not_intro hex)]
    cases hrel : relative_to p root with
    | none => exact List.prefix_refl _
    | some rel =>
      dsimp only
      cases hcp : copy2 (mkdirParents fs (resolve cwd (parentPath (mkBackupPath root rel t))))
          (resolve cwd p) (resolve cwd (mkBackupPath root rel t)) with
      | none =>
        dsimp only
        rw [list_backups_eq_of_readLog_eq (readLog_mkdirParents fs _ root cwd)]
      | some fs2 =>
        dsimp only
        have hrl2 : readLog fs2 root cwd = readLog fs root cwd := by
          obtain ⟨f, hgf, hcase⟩ := copy2_inv hcp
          rcases hcase with hc2 | hc2
          · rw [hc2, readLog_setFile_ne
              (fun hh => resolve_mkBackupPath_ne_resolve_logPath cwd cwd root root rel t hh.symm),
              readLog_mkdirParents]
          · rw [hc2, readLog_setFile_ne
              (fun hh => child_resolve_mkBackupPath_ne_resolve_logPath cwd cwd root root rel t
                (lastName (resolve cwd p)) hh.symm),
              readLog_mkdirParents]
        cases hrl : readLog fs2 root cwd with
        | none =>
          dsimp only
          exact (list_backups_eq_of_readLog_eq (hrl2.trans rfl)).symm ▸ List.prefix_refl _
        | some l =>
          dsimp only
          cases hrb : relative_to (mkBackupPath root rel t) root with
          | none =>
            dsimp only
            exact (list_backups_eq_of_readLog_eq hrl2).symm ▸ List.prefix_refl _
          | some relBp =>
            dsimp only
            cases hst : getFile fs2 (resolve cwd p) with
            | none =>
              dsimp only
              exact (list_backups_eq_of_readLog_eq hrl2).symm ▸ List.prefix_refl _
            | some f =>
              dsimp only
              have hnew : readLog (setFile fs2 (resolve cwd (logPathOf root))
                  ⟨Content.log (l ++ [mkRecord t rel relBp reason (byteSize f.content)]), e⟩)
                  root cwd =
                  some (l ++ [mkRecord t rel relBp reason (byteSize f.content)]) := by
                unfold readLog
                rw [getFile_setFile, if_pos rfl]
              unfold list_backups
              rw [hnew, ← hrl2, hrl]
              exact ⟨_, rfl⟩
  · rw [if_pos hex]

/-- Iterating `backup_file` keeps the old log a prefix of the new log. -/
theorem list_backups_prefix_runCaptures (root cwd : PyPath) :
    ∀ (ops : List (PyPath × String × Tm × Int)) (fs : FS),
      list_backups fs root cwd <+: list_backups (runCaptures root cwd fs ops) root cwd
  | [], fs => List.prefix_refl _
  | (p, reason, t, e) :: ops, fs => by
    unfold runCaptures
    exact (list_backups_prefix_backup_file fs root cwd p reason t e).trans
      (list_backups_prefix_runCaptures root cwd ops _)

theorem getFile_foldl_removeFile_ne :
    ∀ (L : List (PyPath × File)) (fs : FS) (q : PyPath),
      (∀ e ∈ L, e.1 ≠ q) →
      getFile (L.foldl (fun a e => removeFile a e.1) fs) q = getFile fs q
  | [], _, _, _ => rfl
  | a :: L, fs, q, h => by
    rw [List.foldl_cons,
      getFile_foldl_removeFile_ne L (removeFile fs a.1) q (fun e he => h e (List.mem_cons_of_mem _ he)),
      getFile_removeFile, if_neg (fun hh => h a (List.mem_cons_self _ _) hh.symm)]

theorem sweepDoomed_key_ne_log {fs : FS} {bd : PyPath} {cutoff : Int} {root cwd : PyPath}
    {e : PyPath × File} (he : e ∈ sweepDoomed fs bd cutoff) :
    e.1 ≠ resolve cwd (logPathOf root) := by
  intro heq
  have h1 := (List.mem_filter.1 he).2
  unfold sweepCond at h1
  have h2 : containsBackupMark (lastName e.1) = true := by
    rcases Bool.and_eq_true_iff.1 h1 with ⟨h3, _⟩
    exact (Bool.and_eq_true_iff.1 h3).2
  rw [heq, lastName_resolve_logPath] at h2
  exact absurd h2 (by decide)

/-- `cleanup_old_backups` leaves the log file untouched. -/
theorem getFile_cleanup_log (fs : FS) (root cwd : PyPath) (nowE k : Int) :
    getFile (cleanup_old_backups fs root cwd nowE k).1 (resolve cwd (logPathOf root)) =
      getFile fs (resolve cwd (logPathOf root)) := by
  unfold cleanup_old_backups
  dsimp only
  unfold getFile
  rw [files_pruneDirs]
  have h := getFile_foldl_removeFile_ne
    (sweepDoomed fs (resolve cwd (backupDirOf root)) (nowE - k * 86400)) fs
    (resolve cwd (logPathOf root)) (fun e he => sweepDoomed_key_ne_log he)
  unfold getFile at h
  exact h

theorem foldl_removeFile_files :
    ∀ (L : List (PyPath × File)) (fs : FS),
      (L.foldl (fun a e => removeFile a e.1) fs).files =
        fs.files.filter (fun e => decide (e.1 ∉ L.map Prod.fst))
  | [], fs => by simp
  | a :: L, fs => by
    rw [List.foldl_cons, foldl_removeFile_files L (removeFile fs a.1)]
    unfold removeFile
    dsimp only
    rw [List.filter_filter]
    apply List.filter_congr
    intro e _
    by_cases h1 : e.1 = a.1 <;> by_cases h2 : e.1 ∈ List.map Prod.fst L <;>
      simp [h1, h2]

theorem eq_of_nodupKeys :
    ∀ {L : List (PyPath × File)}, (L.map Prod.fst).Nodup →
      ∀ {e1 e2 : PyPath × File}, e1 ∈ L → e2 ∈ L → e1.1 = e2.1 → e1 = e2 := by
  intro L
  induction L with
  | nil => intro _ e1 e2 h1; exact absurd h1 (List.not_mem_nil _)
  | cons a L ih =>
    intro hnd e1 e2 h1 h2 hk
    rw [List.map_cons, List.nodup_cons] at hnd
    rcases List.mem_cons.1 h1 with rfl | h1'
    · rcases List.mem_cons.1 h2 with rfl | h2'
      · rfl
      · exact absurd (hk ▸ List.mem_map_of_mem Prod.fst h2') hnd.1
    · rcases List.mem_cons.1 h2 with rfl | h2'
      · exact absurd (hk ▸ List.mem_map_of_mem Prod.fst h1') hnd.1
      · exact ih hnd.2 h1' h2' hk

theorem filter_key_setFile (fs : FS) (p : PyPath) (f : File) :
    (setFile fs p f).files.filter (fun e => e.1 == p) = [(p, f)] := by
  unfold setFile
  dsimp only
  rw [List.filter_cons_of_pos (by simp), List.filter_filter]
  rw [List.filter_eq_nil_iff.2]
  intro e _
  by_cases h : e.1 = p <;> simp [h]

theorem filter_key_setFile_ne (fs : FS) (p : PyPath) (f : File) (q : PyPath) (h : q ≠ p) :
    (setFile fs p f).files.filter (fun e => e.1 == q) =
      fs.files.filter (fun e => e.1 == q) := by
  unfold setFile
  dsimp only
  rw [List.filter_cons_of_neg (by simpa using fun hh : p = q => h hh.symm), List.filter_filter]
  apply List.filter_congr
  intro e _
  by_cases he : e.1 = q
  · simp [he, fun hh : q = p => h hh]
  · simp [he]

theorem cleanup_files (fs : FS) (root cwd : PyPath) (nowE k : Int) :
    (cleanup_old_backups fs root cwd nowE k).1.files =
      fs.files.filter (fun e => decide (e.1 ∉
        (sweepDoomed fs (resolve cwd (backupDirOf root)) (nowE - k * 86400)).map Prod.fst)) := by
  unfold cleanup_old_backups
  dsimp only
  rw [files_pruneDirs, foldl_removeFile_files]

theorem mem_cleanup_files {fs : FS} {root cwd : PyPath} {nowE k : Int} {e : PyPath × File}
    (he : e ∈ (cleanup_old_backups fs root cwd nowE k).1.files) :
    e ∈ fs.files ∧
      sweepCond (resolve cwd (backupDirOf root)) (nowE - k * 86400) e = false := by
  rw [cleanup_files] at he
  obtain ⟨h1, h2⟩ := List.mem_filter.1 he
  refine ⟨h1, ?_⟩
  rcases Bool.eq_false_or_eq_true
      (sweepCond (resolve cwd (backupDirOf root)) (nowE - k * 86400) e) with hc | hc
  swap
  · exact hc
  · exfalso
    have h3 : e ∈ sweepDoomed fs (resolve cwd (backupDirOf root)) (nowE - k * 86400) :=
      List.mem_filter.2 ⟨h1, hc⟩
    have h4 := List.mem_map_of_mem Prod.fst h3
    simp only [decide_eq_true_eq] at h2
    exact h2 h4

theorem sweepDoomed_cleanup (fs : FS) (root cwd : PyPath) (nowE k : Int) :
    sweepDoomed (cleanup_old_backups fs root cwd nowE k).1
      (resolve cwd (backupDirOf root)) (nowE - k * 86400) = [] := by
  unfold sweepDoomed
  apply List.filter_eq_nil_iff.2
  intro e he
  have h := (mem_cleanup_files he).2
  simp [h]

end Lemmas

/-! ## A small concrete world used by counterexamples and witnesses -/

/-- A concrete project root `/r`. -/
def rootW : PyPath := ⟨true, ["r"]⟩

/-- The concrete log file path `/r/.config_backup/backup_log.json`. -/
def logW : PyPath := logPathOf rootW

/-- A concrete capture instant. -/
def t0 : Tm := ⟨2024, 1, 1, 10, 0, 0⟩

/-- A capture instant two seconds after `t0`. -/
def t2s : Tm := ⟨2024, 1, 1, 10, 0, 2⟩

/-- A file directly under the project root. -/
def srcTop : PyPath := childPath rootW "g.txt"

/-- Its content. -/
def fileG : File := ⟨Content.bytes [9, 8], 3⟩

/-- A file in a subdirectory `a` of the project root. -/
def srcNested : PyPath := ⟨true, ["r", "a", "f.txt"]⟩

/-- Its content. -/
def fileF : File := ⟨Content.bytes [1, 2, 3], 5⟩

/-- World with one top-level file and an empty log. -/
def fsTop : FS :=
  ⟨[(srcTop, fileG), (logW, ⟨Content.log [], 0⟩)],
   [rootW, ⟨true, ["r", ".config_backup"]⟩]⟩

/-- World with one nested file and an empty log. -/
def fsNested : FS :=
  ⟨[(srcNested, fileF), (logW, ⟨Content.log [], 0⟩)],
   [rootW, ⟨true, ["r", "a"]⟩, ⟨true, ["r", ".config_backup"]⟩]⟩

/-- A stored backup file with modification time 0 (long expired). -/
def bpPathOld : PyPath := ⟨true, ["r", ".config_backup", "f.txt.backup.20240101_100000"]⟩

/-- World with the empty log and one expired stored backup. -/
def fsSweep : FS :=
  ⟨[(logW, ⟨Content.log [], 0⟩), (bpPathOld, ⟨Content.bytes [7], 0⟩)],
   [rootW, ⟨true, ["r", ".config_backup"]⟩]⟩

/-- World holding only the (empty) log. -/
def fsLogOnly : FS :=
  ⟨[(logW, ⟨Content.log [], 0⟩)], [rootW, ⟨true, ["r", ".config_backup"]⟩]⟩

/-- The nested source given as a path relative to the project root. -/
def relSrc : PyPath := ⟨false, ["a", "f.txt"]⟩

/-! ## The claims -/

/-- C2: capturing a path that does not exist (no file and no directory at its
resolved location) is a successful no-op: `backup_file` returns `None`,
raises nothing, writes no file and leaves the filesystem — in particular the
Backup Log — completely unchanged. -/
theorem C2_missing_source_noop (fs : FS) (root cwd p : PyPath) (reason : String)
    (t : Tm) (e : Int) (h : ¬ existsPath fs (resolve cwd p)) :
    backup_file fs root cwd p reason t e = (fs, Except.ok none) := by
  unfold backup_file
  rw [if_pos h]

theorem C2_missing_source_noop_witness :
    backup_file fsTop rootW rootW ⟨true, ["r", "nope.txt"]⟩ "reason" t0 0 =
      (fsTop, Except.ok none) :=
  C2_missing_source_noop fsTop rootW rootW ⟨true, ["r", "nope.txt"]⟩ "reason" t0 0
    (by decide)

/-- C4: the Backup Log is append-only.  Across any sequence of `backup_file`
calls the old parsed log remains a prefix of the new one (so records are
never rewritten or deleted and the length never decreases), and
`cleanup_old_backups` leaves the log file — `backup_log.json` itself,
content included — untouched. -/
theorem C4_append_only_log (fs : FS) (root cwd : PyPath)
    (ops : List (PyPath × String × Tm × Int)) (nowE k : Int) :
    (list_backups fs root cwd <+: list_backups (runCaptures root cwd fs ops) root cwd) ∧
    logLen fs root cwd ≤ logLen (runCaptures root cwd fs ops) root cwd ∧
    getFile (cleanup_old_backups fs root cwd nowE k).1 (resolve cwd (logPathOf root)) =
      getFile fs (resolve cwd (logPathOf root)) := by
  refine ⟨list_backups_prefix_runCaptures root cwd ops fs, ?_, getFile_cleanup_log fs root cwd nowE k⟩
  exact (list_backups_prefix_runCaptures root cwd ops fs).length_le

/-- C7: the retention sweep is idempotent.  After one `cleanup_old_backups`
run no stored file still satisfies the sweep condition, so a second run with
the same clock and age bound deletes zero files and leaves the stored files
exactly as the first run left them. -/
theorem C7_cleanup_idempotent (fs : FS) (root cwd : PyPath) (nowE k : Int) :
    sweepDoomed (cleanup_old_backups fs root cwd nowE k).1
      (resolve cwd (backupDirOf root)) (nowE - k * 86400) = [] ∧
    (cleanup_old_backups (cleanup_old_backups fs root cwd nowE k).1 root cwd nowE k).1.files =
      (cleanup_old_backups fs root cwd nowE k).1.files := by
  refine ⟨sweepDoomed_cleanup fs root cwd nowE k, ?_⟩
  rw [cleanup_files, sweepDoomed_cleanup]
  simp

/-- C6 counterexample: the claim says `cleanup(max_age_days)` returns the
number of files removed.  On a store holding one expired backup the run
removes that one file, yet the Python function has no `return` statement: it
returns `None`, not the count `1`. -/
theorem C6_counterexample :
    (cleanup_old_backups fsSweep rootW rootW 1000000000 7).2 = none ∧
    fsSweep.files.length =
      (cleanup_old_backups fsSweep rootW rootW 1000000000 7).1.files.length + 1 := by
  decide

/-- C6 as amended: the retention sweep removes exactly the stored files below
the backup directory whose name matches `*.backup.*` and whose modification
time is older than `now - max_age_days` (given distinct file paths), but it
returns nothing (`None`), not a count. -/
theorem C6_cleanup_removes_expired (fs : FS) (root cwd : PyPath) (nowE k : Int)
    (hnd : (fs.files.map Prod.fst).Nodup) :
    (cleanup_old_backups fs root cwd nowE k).2 = none ∧
    ∀ e : PyPath × File,
      e ∈ (cleanup_old_backups fs root cwd nowE k).1.files ↔
        (e ∈ fs.files ∧
          sweepCond (resolve cwd (backupDirOf root)) (nowE - k * 86400) e = false) := by
  refine ⟨rfl, fun e => ⟨mem_cleanup_files, fun ⟨hm, hsc⟩ => ?_⟩⟩
  rw [cleanup_files]
  refine List.mem_filter.2 ⟨hm, ?_⟩
  simp only [decide_eq_true_eq]
  intro hk
  obtain ⟨e2, he2, hkey⟩ := List.mem_map.1 hk
  obtain ⟨he2m, he2c⟩ := List.mem_filter.1 he2
  have heq := eq_of_nodupKeys hnd he2m hm hkey
  rw [heq] at he2c
  rw [he2c] at hsc
  exact absurd hsc (by simp)

theorem C6_cleanup_removes_expired_witness :
    (cleanup_old_backups fsSweep rootW rootW 1000000000 7).2 = none ∧
    ((bpPathOld, (⟨Content.bytes [7], 0⟩ : File)) ∈
        (cleanup_old_backups fsSweep rootW rootW 1000000000 7).1.files ↔
      ((bpPathOld, (⟨Content.bytes [7], 0⟩ : File)) ∈ fsSweep.files ∧
        sweepCond (resolve rootW (backupDirOf rootW)) (1000000000 - 7 * 86400)
          (bpPathOld, ⟨Content.bytes [7], 0⟩) = false)) :=
  ⟨(C6_cleanup_removes_expired fsSweep rootW rootW 1000000000 7 (by decide)).1,
   (C6_cleanup_removes_expired fsSweep rootW rootW 1000000000 7 (by decide)).2 _⟩

/-- C5 counterexample: the claim says capture returns the appended
BackupRecord.  Two runs of `backup_file` on the same state differing only in
the `reason` argument append different records to the log, yet return the
same value — so the return value cannot be the appended record.  (It is the
backup path, `Optional[Path]`.) -/
theorem C5_counterexample :
    (backup_file fsTop rootW rootW srcTop "reason-A" t0 7).2 =
      (backup_file fsTop rootW rootW srcTop "reason-B" t0 7).2 ∧
    readLog (backup_file fsTop rootW rootW srcTop "reason-A" t0 7).1 rootW rootW ≠
      readLog (backup_file fsTop rootW rootW srcTop "reason-B" t0 7).1 rootW rootW := by
  decide

/-- C5 as amended: for an existing source file `backup_file` returns `some`
of the mapped backup path (not the record) and appends to the Backup Log
exactly one `BackupRecord` carrying the timestamp, the original and backup
paths relative to the root, the reason and the source's size. -/
theorem C5_capture_returns_path_and_appends_record
    (fs : FS) (root cwd file_path : PyPath) (reason : String) (t : Tm) (nowE : Int)
    (F : File) (l : List BackupRecord)
    (hra : root.isAbs = true) (hpa : file_path.isAbs = true)
    (hpre : root.components <+: file_path.components)
    (hf : getFile fs file_path = some F)
    (hl : readLog fs root cwd = some l)
    (hd : mkBackupPath root (relOf root file_path) t ∉ fs.dirs) :
    (backup_file fs root cwd file_path reason t nowE).2 =
      Except.ok (some (mkBackupPath root (relOf root file_path) t)) ∧
    readLog (backup_file fs root cwd file_path reason t nowE).1 root cwd =
      some (l ++ [mkRecord t (relOf root file_path)
        ([".config_backup"] ++ (relOf root file_path).dropLast ++
          [backupName (relOf root file_path) t]) reason (byteSize F.content)]) := by
  rw [backup_file_success fs root cwd file_path reason t nowE F l hra hpa hpre hf hl hd]
  refine ⟨rfl, ?_⟩
  unfold captureState readLog
  rw [resolve_isAbs_self (by rw [isAbs_logPathOf]; exact hra), getFile_setFile, if_pos rfl]

theorem C5_capture_returns_path_and_appends_record_witness :
    (backup_file fsTop rootW rootW srcTop "w" t0 4).2 =
      Except.ok (some (mkBackupPath rootW (relOf rootW srcTop) t0)) ∧
    readLog (backup_file fsTop rootW rootW srcTop "w" t0 4).1 rootW rootW =
      some ([] ++ [mkRecord t0 (relOf rootW srcTop)
        ([".config_backup"] ++ (relOf rootW srcTop).dropLast ++
          [backupName (relOf rootW srcTop) t0]) "w" (byteSize fileG.content)]) :=
  C5_capture_returns_path_and_appends_record fsTop rootW rootW srcTop "w" t0 4 fileG []
    (by decide) (by decide) (by decide) (by decide) (by decide) (by decide)

/-- C9 counterexample: a project-relative path to an existing file.  The file
exists (the OS resolves the relative path against the working directory, here
the project root), yet `backup_file` raises: `Path.relative_to` is purely
lexical and a relative path is never "in the subpath" of the absolute project
root — the error branch of the relativization step is reachable. -/
theorem C9_counterexample :
    existsPath fsNested (resolve rootW relSrc) ∧
    (backup_file fsNested rootW rootW relSrc "reason" t0 0).2 =
      Except.error PyErr.valueError := by
  decide

/-- C9 as amended: for an existing file given as an absolute path below the
project root, capture succeeds without raising and stores the copy at the
mapped backup path (the original directory structure below the backup root,
file name `<original_file_name>.backup.<YYYYMMDD_HHMMSS>`), byte-identical to
the source; project-relative paths instead make the relativization raise. -/
theorem C9_absolute_capture_succeeds
    (fs : FS) (root cwd file_path : PyPath) (reason : String) (t : Tm) (nowE : Int)
    (F : File) (l : List BackupRecord)
    (hra : root.isAbs = true) (hpa : file_path.isAbs = true)
    (hpre : root.components <+: file_path.components)
    (hf : getFile fs file_path = some F)
    (hl : readLog fs root cwd = some l)
    (hd : mkBackupPath root (relOf root file_path) t ∉ fs.dirs) :
    (backup_file fs root cwd file_path reason t nowE).2 =
      Except.ok (some (mkBackupPath root (relOf root file_path) t)) ∧
    getFile (backup_file fs root cwd file_path reason t nowE).1
      (mkBackupPath root (relOf root file_path) t) = some F := by
  rw [backup_file_success fs root cwd file_path reason t nowE F l hra hpa hpre hf hl hd]
  refine ⟨rfl, ?_⟩
  unfold captureState
  rw [getFile_setFile,
    if_neg (mkBackupPath_ne_logPath root root (relOf root file_path) t),
    getFile_setFile, if_pos rfl]

theorem C9_absolute_capture_succeeds_witness :
    (backup_file fsNested rootW rootW srcNested "w" t0 4).2 =
      Except.ok (some (mkBackupPath rootW (relOf rootW srcNested) t0)) ∧
    getFile (backup_file fsNested rootW rootW srcNested "w" t0 4).1
      (mkBackupPath rootW (relOf rootW srcNested) t0) = some fileF :=
  C9_absolute_capture_succeeds fsNested rootW rootW srcNested "w" t0 4 fileF []
    (by decide) (by decide) (by decide) (by decide) (by decide) (by decide)

/-- C10 counterexample: the log file itself is an existing source file under
the project root, and capturing it succeeds — but rewrites the source:
`_log_backup` appends a record to `backup_log.json`, which *is* the source,
so capture does not leave every existing source file unchanged. -/
theorem C10_counterexample :
    (backup_file fsLogOnly rootW rootW logW "r" t0 9).2 =
      Except.ok (some ⟨true,
        ["r", ".config_backup", ".config_backup", "backup_log.json.backup.20240101_100000"]⟩) ∧
    getFile (backup_file fsLogOnly rootW rootW logW "r" t0 9).1 logW ≠
      getFile fsLogOnly logW := by
  decide

/-- C10 as amended: for an existing source file other than the backup log
itself, capture leaves the source unchanged (same path, same content, same
modification time); its only effects are adding directories, the one stored
copy at the mapped backup path, and rewriting the backup log file. -/
theorem C10_capture_frame
    (fs : FS) (root cwd file_path : PyPath) (reason : String) (t : Tm) (nowE : Int)
    (F : File) (l : List BackupRecord)
    (hra : root.isAbs = true) (hpa : file_path.isAbs = true)
    (hpre : root.components <+: file_path.components)
    (hf : getFile fs file_path = some F)
    (hl : readLog fs root cwd = some l)
    (hd : mkBackupPath root (relOf root file_path) t ∉ fs.dirs)
    (hne : file_path ≠ logPathOf root) :
    getFile (backup_file fs root cwd file_path reason t nowE).1 file_path = some F ∧
    (∀ q : PyPath, q ≠ mkBackupPath root (relOf root file_path) t →
      q ≠ logPathOf root →
      getFile (backup_file fs root cwd file_path reason t nowE).1 q = getFile fs q) ∧
    (∀ d : PyPath, d ∈ fs.dirs →
      d ∈ (backup_file fs root cwd file_path reason t nowE).1.dirs) := by
  rw [backup_file_success fs root cwd file_path reason t nowE F l hra hpa hpre hf hl hd]
  unfold captureState
  refine ⟨?_, ?_, ?_⟩
  · rw [getFile_setFile, if_neg hne, getFile_setFile,
      if_neg (file_path_ne_mkBackupPath hpre), getFile_mkdirParents]
    exact hf
  · intro q hq1 hq2
    rw [getFile_setFile, if_neg hq2, getFile_setFile, if_neg hq1, getFile_mkdirParents]
  · intro d hdm
    rw [dirs_setFile, dirs_setFile]
    exact dirs_subset_mkdirParents _ hdm

theorem C10_capture_frame_witness :
    getFile (backup_file fsNested rootW rootW srcNested "w" t0 4).1 srcNested = some fileF ∧
    getFile (backup_file fsNested rootW rootW srcNested "w" t0 4).1 srcTop =
      getFile fsNested srcTop ∧
    rootW ∈ (backup_file fsNested rootW rootW srcNested "w" t0 4).1.dirs := by
  have h := C10_capture_frame fsNested rootW rootW srcNested "w" t0 4 fileF []
    (by decide) (by decide) (by decide) (by decide) (by decide) (by decide) (by decide)
  exact ⟨h.1, h.2.1 srcTop (by decide) (by decide), h.2.2 rootW (by decide)⟩

/-- C3 counterexample: the claim's "in all cases (success or failure) never
reads or mutates the Backup Log" fails: restoring an existing backup with the
explicit target set to the log file succeeds and overwrites
`backup_log.json` with the backup's bytes. -/
theorem C3_counterexample :
    (restore_backup fsSweep rootW rootW bpPathOld (some logW)).2 = Except.ok true ∧
    getFile (restore_backup fsSweep rootW rootW bpPathOld (some logW)).1 logW ≠
      getFile fsSweep logW := by
  decide

/-- C3 as amended: restoring a backup path that does not exist on disk
returns `False` and changes nothing (no file, no directory, no log access);
and in every case `restore_backup` writes no file other than at the resolved
target (or at `target/<source name>` when the target is an existing
directory) — so the Backup Log is mutated only when that write location is
the log file itself, and is never read. -/
theorem C3_restore_missing_soft_fail
    (fs : FS) (root cwd bpath : PyPath) (targetOpt : Option PyPath) :
    (¬ existsPath fs (resolve cwd bpath) →
      restore_backup fs root cwd bpath targetOpt = (fs, Except.ok false)) ∧
    (∀ q : PyPath,
      q ≠ resolve cwd (targetOpt.getD (restoreTarget bpath)) →
      q ≠ childPath (resolve cwd (targetOpt.getD (restoreTarget bpath)))
        (lastName (resolve cwd bpath)) →
      getFile (restore_backup fs root cwd bpath targetOpt).1 q = getFile fs q) := by
  constructor
  · intro h
    unfold restore_backup
    rw [if_pos h]
  · intro q h1 h2
    unfold restore_backup
    by_cases hex : existsPath fs (resolve cwd bpath)
    · rw [if_neg (not_not_intro hex)]
      dsimp only
      cases hcp : copy2
          (mkdirParents fs (resolve cwd (parentPath (targetOpt.getD (restoreTarget bpath)))))
          (resolve cwd bpath) (resolve cwd (targetOpt.getD (restoreTarget bpath))) with
      | none =>
        dsimp only
        rw [getFile_mkdirParents]
      | some fs2 =>
        dsimp only
        have hg : getFile fs2 q = getFile fs q := by
          obtain ⟨f, hgf, hcase⟩ := copy2_inv hcp
          rcases hcase with hc2 | hc2
          · rw [hc2, getFile_setFile, if_neg h1, getFile_mkdirParents]
          · rw [hc2, getFile_setFile, if_neg h2, getFile_mkdirParents]
        cases hrt : relative_to (targetOpt.getD (restoreTarget bpath)) root with
        | none => dsimp only; exact hg
        | some r => dsimp only; exact hg
    · rw [if_pos hex]

theorem C3_restore_missing_soft_fail_witness :
    restore_backup fsTop rootW rootW ⟨true, ["r", ".config_backup", "gone.backup.x"]⟩ none =
      (fsTop, Except.ok false) ∧
    getFile (restore_backup fsSweep rootW rootW bpPathOld
      (some ⟨true, ["r", "out.txt"]⟩)).1 logW = getFile fsSweep logW :=
  ⟨(C3_restore_missing_soft_fail fsTop rootW rootW
      ⟨true, ["r", ".config_backup", "gone.backup.x"]⟩ none).1 (by decide),
   (C3_restore_missing_soft_fail fsSweep rootW rootW bpPathOld
      (some ⟨true, ["r", "out.txt"]⟩)).2 logW (by decide) (by decide)⟩

theorem relOf_childPath (root : PyPath) (name : String) :
    relOf root (childPath root name) = [name] := by
  unfold relOf childPath
  dsimp only
  rw [List.drop_left]

theorem components_mkBackupPath_single (root : PyPath) (name : String) (t : Tm) :
    (mkBackupPath root [name] t).components =
      (root.components ++ [".config_backup"]) ++ [backupName [name] t] := by
  rw [components_mkBackupPath]
  simp

theorem restoreTarget_mkBackupPath_single (root : PyPath) (name : String) (t : Tm)
    (hsplit : pySplitHead (backupName [name] t) ".backup." = name) :
    restoreTarget (mkBackupPath root [name] t) = childPath root name := by
  unfold restoreTarget parentPath lastName childPath
  rw [components_mkBackupPath_single, List.dropLast_concat, List.dropLast_concat,
    List.getLast?_concat]
  dsimp only [Option.getD_some]
  rw [hsplit]
  rfl

/-- C1 counterexample intermediate state: capture of the nested file. -/
def c1Cap : FS × Except PyErr (Option PyPath) :=
  backup_file fsNested rootW rootW srcNested "pre-fix" t0 100

/-- C1 counterexample: the original is then deleted. -/
def c1Mid : FS := removeFile c1Cap.1 srcNested

/-- C1 counterexample: restore of the returned backup path with no target. -/
def c1Res : FS × Except PyErr Bool :=
  restore_backup c1Mid rootW rootW (mkBackupPath rootW ["a", "f.txt"] t0) none

/-- C1 counterexample: for the nested file `/r/a/f.txt`, capture succeeds and
returns the backup path, the original is deleted, and the no-target restore
reports success — but the file is recreated at
`/r/.config_backup/f.txt` (the backup file's grandparent joined with the
stripped name), not at its original path `/r/a/f.txt`, which stays absent.
So the claimed round-trip does not hold for nested files. -/
theorem C1_counterexample :
    c1Cap.2 = Except.ok (some (mkBackupPath rootW ["a", "f.txt"] t0)) ∧
    getFile c1Mid srcNested = none ∧
    c1Res.2 = Except.ok true ∧
    getFile c1Res.1 srcNested = none ∧
    getFile c1Res.1 ⟨true, ["r", ".config_backup", "f.txt"]⟩ = some fileF := by
  decide

/-- C1 as amended: the capture/restore round-trip with a defaulted target
recreates the original byte-identically (content and modification time) for
files whose parent is the project root — `backup_path.parent.parent` is then
the root itself.  The filesystem `fs2` at restore time is arbitrary as long
as it still holds the stored backup (the original may have been modified or
deleted).  For nested files the default target is
`backup_path.parent.parent / <stripped name>` inside the backup tree, not
the original path (see the counterexample). -/
theorem C1_roundtrip_top_level
    (fs fs2 : FS) (root cwd : PyPath) (name : String) (F : File)
    (l : List BackupRecord) (reason : String) (t : Tm) (e : Int)
    (hra : root.isAbs = true)
    (hf : getFile fs (childPath root name) = some F)
    (hl : readLog fs root cwd = some l)
    (hd : mkBackupPath root [name] t ∉ fs.dirs)
    (hsplit : pySplitHead (backupName [name] t) ".backup." = name)
    (hagree : getFile fs2 (mkBackupPath root [name] t) =
      getFile (backup_file fs root cwd (childPath root name) reason t e).1
        (mkBackupPath root [name] t))
    (hd2 : childPath root name ∉ fs2.dirs) :
    (backup_file fs root cwd (childPath root name) reason t e).2 =
      Except.ok (some (mkBackupPath root [name] t)) ∧
    (restore_backup fs2 root cwd (mkBackupPath root [name] t) none).2 = Except.ok true ∧
    getFile (restore_backup fs2 root cwd (mkBackupPath root [name] t) none).1
      (childPath root name) = some F := by
  have hca : (childPath root name).isAbs = true := hra
  have hpre : root.components <+: (childPath root name).components := ⟨[name], rfl⟩
  have hrel0 : relOf root (childPath root name) = [name] := relOf_childPath root name
  have hcap := backup_file_success fs root cwd (childPath root name) reason t e F l
    hra hca hpre hf hl (by rw [hrel0]; exact hd)
  rw [hrel0] at hcap
  have hbpa : (mkBackupPath root [name] t).isAbs = true := hra
  have hbpF : getFile (backup_file fs root cwd (childPath root name) reason t e).1
      (mkBackupPath root [name] t) = some F := by
    rw [hcap]
    unfold captureState
    rw [getFile_setFile, if_neg (mkBackupPath_ne_logPath root root [name] t),
      getFile_setFile, if_pos rfl]
  have hb2 : getFile fs2 (mkBackupPath root [name] t) = some F := by
    rw [hagree, hbpF]
  have htgt : restoreTarget (mkBackupPath root [name] t) = childPath root name :=
    restoreTarget_mkBackupPath_single root name t hsplit
  have hgetD : (none : Option PyPath).getD (restoreTarget (mkBackupPath root [name] t)) =
      childPath root name := by
    rw [Option.getD_none, htgt]
  have hres := restore_backup_success fs2 root cwd (mkBackupPath root [name] t) none F
    (by rw [resolve_isAbs_self hbpa]; exact hb2)
    (by rw [hgetD, resolve_isAbs_self hca]; exact hd2)
    (by rw [hgetD]; unfold childPath; simp)
    (by rw [hgetD]; rfl)
    (by rw [hgetD]; exact hpre)
  refine ⟨by rw [hcap], by rw [hres], ?_⟩
  rw [hres]
  dsimp only
  rw [hgetD, resolve_isAbs_self hca, getFile_setFile, if_pos rfl]

theorem C1_roundtrip_top_level_witness :
    (backup_file fsTop rootW rootW (childPath rootW "g.txt") "w" t0 1).2 =
      Except.ok (some (mkBackupPath rootW ["g.txt"] t0)) ∧
    (restore_backup
        (removeFile (backup_file fsTop rootW rootW (childPath rootW "g.txt") "w" t0 1).1
          (childPath rootW "g.txt"))
        rootW rootW (mkBackupPath rootW ["g.txt"] t0) none).2 = Except.ok true ∧
    getFile (restore_backup
        (removeFile (backup_file fsTop rootW rootW (childPath rootW "g.txt") "w" t0 1).1
          (childPath rootW "g.txt"))
        rootW rootW (mkBackupPath rootW ["g.txt"] t0) none).1
      (childPath rootW "g.txt") = some fileG :=
  C1_roundtrip_top_level fsTop
    (removeFile (backup_file fsTop rootW rootW (childPath rootW "g.txt") "w" t0 1).1
      (childPath rootW "g.txt"))
    rootW rootW "g.txt" fileG [] "w" t0 1
    (by decide) (by decide) (by decide) (by decide) (by decide) (by decide) (by decide)

theorem backupName_inj_t {rel : List String} {t1 t2 : Tm} (hv1 : t1.Valid)
    (hv2 : t2.Valid) (h : backupName rel t1 = backupName rel t2) : t1 = t2 := by
  unfold backupName at h
  have h2 := congrArg String.data h
  simp only [String.data_append, List.append_assoc] at h2
  have h3 := List.append_cancel_left h2
  have h4 := List.append_cancel_left h3
  exact fmtTm_inj hv1 hv2 (congrArg String.mk h4)

theorem mkBackupPath_inj_t {root : PyPath} {rel : List String} {t1 t2 : Tm}
    (hv1 : t1.Valid) (hv2 : t2.Valid) (hne : t1 ≠ t2) :
    mkBackupPath root rel t1 ≠ mkBackupPath root rel t2 := by
  intro h
  have h2 := congrArg PyPath.components h
  rw [components_mkBackupPath, components_mkBackupPath] at h2
  exact hne (backupName_inj_t hv1 hv2 (concat_last_eq h2))

theorem mkRecord_ne_of_t {t1 t2 : Tm} (hv1 : t1.Valid) (hv2 : t2.Valid) (hne : t1 ≠ t2)
    (rel1 rel2 rb1 rb2 : List String) (r1 r2 : String) (s1 s2 : Nat) :
    mkRecord t1 rel1 rb1 r1 s1 ≠ mkRecord t2 rel2 rb2 r2 s2 := by
  intro h
  exact hne (isoTm_inj hv1 hv2 (congrArg BackupRecord.timestamp h))

theorem getFile_captureState {fs : FS} {root : PyPath} {rel : List String}
    (reason : String) (t : Tm) (nowE : Int) (F : File) (l : List BackupRecord)
    {q : PyPath} (hq1 : q ≠ logPathOf root) (hq2 : q ≠ mkBackupPath root rel t) :
    getFile (captureState fs root rel reason t nowE F l) q = getFile fs q := by
  unfold captureState
  rw [getFile_setFile, if_neg hq1, getFile_setFile, if_neg hq2, getFile_mkdirParents]

theorem getFile_captureState_bp (fs : FS) (root : PyPath) (rel : List String)
    (reason : String) (t : Tm) (nowE : Int) (F : File) (l : List BackupRecord) :
    getFile (captureState fs root rel reason t nowE F l) (mkBackupPath root rel t) =
      some F := by
  unfold captureState
  rw [getFile_setFile, if_neg (mkBackupPath_ne_logPath root root rel t),
    getFile_setFile, if_pos rfl]

theorem readLog_captureState (fs : FS) (root cwd : PyPath) (rel : List String)
    (reason : String) (t : Tm) (nowE : Int) (F : File) (l : List BackupRecord)
    (hra : root.isAbs = true) :
    readLog (captureState fs root rel reason t nowE F l) root cwd =
      some (l ++ [mkRecord t rel
        ([".config_backup"] ++ rel.dropLast ++ [backupName rel t]) reason
        (byteSize F.content)]) := by
  unfold captureState readLog
  rw [resolve_isAbs_self (by rw [isAbs_logPathOf]; exact hra), getFile_setFile, if_pos rfl]

theorem mkBackupPath_not_mem_captureState_dirs {fs : FS} {root : PyPath}
    {rel : List String} {t t2 : Tm} (reason : String) (nowE : Int) (F : File)
    (l : List BackupRecord) (hd : mkBackupPath root rel t2 ∉ fs.dirs) :
    mkBackupPath root rel t2 ∉ (captureState fs root rel reason t nowE F l).dirs := by
  intro hmem
  rw [show (captureState fs root rel reason t nowE F l).dirs =
    (mkdirParents fs (parentPath (mkBackupPath root rel t))).dirs from rfl] at hmem
  rcases mem_dirs_mkdirParents hmem with h1 | h1
  · exact hd h1
  · unfold parentPath at h1
    dsimp only at h1
    rw [List.length_dropLast] at h1
    have h2 := length_mkBackupPath root rel t
    have h3 := length_mkBackupPath root rel t2
    omega

theorem filter_key_captureState (fs : FS) (root : PyPath) (rel : List String)
    (reason : String) (t : Tm) (nowE : Int) (F : File) (l : List BackupRecord) :
    ((captureState fs root rel reason t nowE F l).files.filter
      (fun en => en.1 == mkBackupPath root rel t)).length = 1 := by
  unfold captureState
  rw [filter_key_setFile_ne _ _ _ _ (mkBackupPath_ne_logPath root root rel t),
    filter_key_setFile]
  rfl

/-- C8: timestamp granularity.  Two captures of the same existing file at
distinct second-resolution timestamps (as is forced when they are more than
one second apart) store two distinct files — both present afterwards, each
byte-identical to the source — and append two distinct log records.  Two
captures within the same second map to the same backup path: the second
silently overwrites the first, exactly one stored file with that path
survives, yet the log still grows by one record per call. -/
theorem C8_timestamp_granularity
    (fs : FS) (root cwd file_path : PyPath) (r1 r2 : String) (t1 t2 : Tm) (e1 e2 : Int)
    (F : File) (l : List BackupRecord)
    (hra : root.isAbs = true) (hpa : file_path.isAbs = true)
    (hpre : root.components <+: file_path.components)
    (hf : getFile fs file_path = some F)
    (hl : readLog fs root cwd = some l)
    (hv1 : t1.Valid) (hv2 : t2.Valid)
    (hlog : file_path ≠ logPathOf root)
    (hd1 : mkBackupPath root (relOf root file_path) t1 ∉ fs.dirs)
    (hd2 : mkBackupPath root (relOf root file_path) t2 ∉ fs.dirs) :
    (t1 ≠ t2 →
      mkBackupPath root (relOf root file_path) t1 ≠
        mkBackupPath root (relOf root file_path) t2 ∧
      getFile (backup_file (backup_file fs root cwd file_path r1 t1 e1).1
          root cwd file_path r2 t2 e2).1
        (mkBackupPath root (relOf root file_path) t1) = some F ∧
      getFile (backup_file (backup_file fs root cwd file_path r1 t1 e1).1
          root cwd file_path r2 t2 e2).1
        (mkBackupPath root (relOf root file_path) t2) = some F ∧
      ∃ R1 R2 : BackupRecord, R1 ≠ R2 ∧
        readLog (backup_file (backup_file fs root cwd file_path r1 t1 e1).1
          root cwd file_path r2 t2 e2).1 root cwd = some (l ++ [R1, R2])) ∧
    (t1 = t2 →
      mkBackupPath root (relOf root file_path) t1 =
        mkBackupPath root (relOf root file_path) t2 ∧
      ((backup_file (backup_file fs root cwd file_path r1 t1 e1).1
          root cwd file_path r2 t2 e2).1.files.filter
        (fun en => en.1 == mkBackupPath root (relOf root file_path) t1)).length = 1 ∧
      ∃ R1 R2 : BackupRecord,
        readLog (backup_file (backup_file fs root cwd file_path r1 t1 e1).1
          root cwd file_path r2 t2 e2).1 root cwd = some (l ++ [R1, R2])) := by
  have hcap1 := backup_file_success fs root cwd file_path r1 t1 e1 F l
    hra hpa hpre hf hl hd1
  have hgf1 : getFile (captureState fs root (relOf root file_path) r1 t1 e1 F l)
      file_path = some F := by
    rw [getFile_captureState r1 t1 e1 F l hlog (file_path_ne_mkBackupPath hpre)]
    exact hf
  have hrl1 := readLog_captureState fs root cwd (relOf root file_path) r1 t1 e1 F l hra
  have hd2' := @mkBackupPath_not_mem_captureState_dirs fs root (relOf root file_path) t1 t2 r1 e1 F l hd2
  have hcap2 := backup_file_success (captureState fs root (relOf root file_path) r1 t1 e1 F l)
    root cwd file_path r2 t2 e2 F
    (l ++ [mkRecord t1 (relOf root file_path)
      ([".config_backup"] ++ (relOf root file_path).dropLast ++
        [backupName (relOf root file_path) t1]) r1 (byteSize F.content)])
    hra hpa hpre hgf1 hrl1 hd2'
  have hfs1 : (backup_file fs root cwd file_path r1 t1 e1).1 =
      captureState fs root (relOf root file_path) r1 t1 e1 F l := by
    rw [hcap1]
  rw [hfs1, hcap2]
  dsimp only
  constructor
  · intro hne
    refine ⟨mkBackupPath_inj_t hv1 hv2 hne, ?_, ?_, ?_⟩
    · rw [getFile_captureState r2 t2 e2 F _ (mkBackupPath_ne_logPath root root _ t1)
        (mkBackupPath_inj_t hv1 hv2 hne)]
      exact getFile_captureState_bp fs root (relOf root file_path) r1 t1 e1 F l
    · exact getFile_captureState_bp _ root (relOf root file_path) r2 t2 e2 F _
    · refine ⟨mkRecord t1 (relOf root file_path)
          ([".config_backup"] ++ (relOf root file_path).dropLast ++
            [backupName (relOf root file_path) t1]) r1 (byteSize F.content),
        mkRecord t2 (relOf root file_path)
          ([".config_backup"] ++ (relOf root file_path).dropLast ++
            [backupName (relOf root file_path) t2]) r2 (byteSize F.content),
        mkRecord_ne_of_t hv1 hv2 hne _ _ _ _ r1 r2 _ _, ?_⟩
      rw [readLog_captureState _ root cwd (relOf root file_path) r2 t2 e2 F _ hra,
        List.append_assoc]
      rfl
  · intro heq
    subst heq
    refine ⟨rfl, ?_, ?_⟩
    · exact filter_key_captureState _ root (relOf root file_path) r2 t1 e2 F _
    · refine ⟨mkRecord t1 (relOf root file_path)
          ([".config_backup"] ++ (relOf root file_path).dropLast ++
            [backupName (relOf root file_path) t1]) r1 (byteSize F.content),
        mkRecord t1 (relOf root file_path)
          ([".config_backup"] ++ (relOf root file_path).dropLast ++
            [backupName (relOf root file_path) t1]) r2 (byteSize F.content), ?_⟩
      rw [readLog_captureState _ root cwd (relOf root file_path) r2 t1 e2 F _ hra,
        List.append_assoc]
      rfl

theorem C8_timestamp_granularity_witness :
    ((t0 ≠ t2s →
      mkBackupPath rootW (relOf rootW srcTop) t0 ≠
        mkBackupPath rootW (relOf rootW srcTop) t2s ∧
      getFile (backup_file (backup_file fsTop rootW rootW srcTop "a" t0 1).1
          rootW rootW srcTop "b" t2s 2).1
        (mkBackupPath rootW (relOf rootW srcTop) t0) = some fileG ∧
      getFile (backup_file (backup_file fsTop rootW rootW srcTop "a" t0 1).1
          rootW rootW srcTop "b" t2s 2).1
        (mkBackupPath rootW (relOf rootW srcTop) t2s) = some fileG ∧
      ∃ R1 R2 : BackupRecord, R1 ≠ R2 ∧
        readLog (backup_file (backup_file fsTop rootW rootW srcTop "a" t0 1).1
          rootW rootW srcTop "b" t2s 2).1 rootW rootW = some ([] ++ [R1, R2])) ∧
    (t0 = t2s →
      mkBackupPath rootW (relOf rootW srcTop) t0 =
        mkBackupPath rootW (relOf rootW srcTop) t2s ∧
      ((backup_file (backup_file fsTop rootW rootW srcTop "a" t0 1).1
          rootW rootW srcTop "b" t2s 2).1.files.filter
        (fun en => en.1 == mkBackupPath rootW (relOf rootW srcTop) t0)).length = 1 ∧
      ∃ R1 R2 : BackupRecord,
        readLog (backup_file (backup_file fsTop rootW rootW srcTop "a" t0 1).1
          rootW rootW srcTop "b" t2s 2).1 rootW rootW = some ([] ++ [R1, R2]))) :=
  C8_timestamp_granularity fsTop rootW rootW srcTop "a" "b" t0 t2s 1 2 fileG []
    (by decide) (by decide) (by decide) (by decide) (by decide) (by decide) (by decide)
    (by decide) (by decide) (by decide)

end FixProject
